import Mathlib

/-!
Shallow embedding of the enproto framing codec (src/unnamed/part_001,
src/framer.go, src/frame.go).  Bytes are modelled as `Nat` values below 256;
byte streams as `List Nat`.  Machine-integer truncation (`uint32(len p)`)
is made explicit with `% 2^32`.
-/

namespace Enproto

/-- Protocol magic constant, `Magic uint16 = 0x5959` in the source. -/
def Magic : Nat := 0x5959

/-- Wire-format version, `ProtocolVersion byte = 1` in the source. -/
def ProtocolVersion : Nat := 1

/-- Maximum declared payload length, `maxAllowed uint32 = 100*1024*1024`. -/
def maxAllowed : Nat := 100 * 1024 * 1024

/-- Size of the bufio writer attached by `NewFramer`: `64*1024`. -/
def writerSize : Nat := 64 * 1024

/-- Big-endian 4-byte encoding of a 32-bit value, mirroring
`binary.BigEndian.PutUint32` (each byte is the truncated shift). -/
def putUint32BE (v : Nat) : List Nat :=
  [v / 16777216 % 256, v / 65536 % 256, v / 256 % 256, v % 256]

/-- Header built by `WriteFrameBuffered` (part_001 lines 52-56): magic
big-endian in bytes 0-1, version in byte 2, msgType in byte 3, and
`uint32(len(payload))` big-endian in bytes 4-7.  The Go conversion
`uint32(len(payload))` truncates, hence the `% 2^32`. -/
def encodeHeader (msgType : Nat) (payload : List Nat) : List Nat :=
  Magic / 256 % 256 :: Magic % 256 :: ProtocolVersion :: msgType ::
    putUint32BE (payload.length % 4294967296)

/-- State of the `bufio.Writer` wrapped around the transport: `buf` is the
staged-but-undelivered bytes (`b.buf[0:b.n]`), `out` is everything already
delivered to the underlying transport. -/
structure BW where
  buf : List Nat
  out : List Nat
deriving DecidableEq, Repr

/-- Model of `bufio.Writer.Write` (with a transport that accepts every
write in full): while the chunk exceeds the available space, either write
it straight through when nothing is buffered, or top up the buffer and
flush it; finally copy the remainder into the buffer. -/
def bwWrite (st : BW) (p : List Nat) : BW :=
  if h1 : p.length ≤ writerSize - st.buf.length then
    { st with buf := st.buf ++ p }
  else if h2 : st.buf.length = 0 then
    { st with out := st.out ++ p }
  else
    bwWrite
      { buf := [],
        out := st.out ++ st.buf ++ p.take (writerSize - st.buf.length) }
      (p.drop (writerSize - st.buf.length))
termination_by p.length + st.buf.length
decreasing_by
  simp only [List.length_drop, List.length_nil]
  omega

/-- Model of `bufio.Writer.Flush`: deliver all staged bytes. -/
def flush (st : BW) : BW :=
  { buf := [], out := st.out ++ st.buf }

/-- `Framer.WriteFrameBuffered` (part_001 lines 51-66): stage the 8-byte
header, then the payload, into the write buffer. -/
def writeFrameBuffered (st : BW) (msgType : Nat) (payload : List Nat) : BW :=
  bwWrite (bwWrite st (encodeHeader msgType payload)) payload

/-- `Framer.WriteFrame` (part_001 lines 42-47): `WriteFrameBuffered`
followed by `Flush`. -/
def writeFrame (st : BW) (msgType : Nat) (payload : List Nat) : BW :=
  flush (writeFrameBuffered st msgType payload)

/-- `Framer.WriteBuffered` (part_001 lines 141-146): returns
`f.bw.Buffered()`, the count of staged bytes; the state is untouched. -/
def writeBuffered (st : BW) : Nat × BW :=
  (st.buf.length, st)

/-- State of the `bufio.Reader`: `buf` holds bytes already pulled from the
transport and not yet consumed; `src` is the rest of the transport. -/
structure BR where
  buf : List Nat
  src : List Nat
deriving DecidableEq, Repr

/-- One buffer fill of the `bufio.Reader` (reader size 64 KiB, transport
delivering all it has): pull up to `writerSize` bytes when empty. -/
def brFill (st : BR) : BR :=
  if st.buf.isEmpty then
    { buf := st.src.take writerSize, src := st.src.drop writerSize }
  else st

/-- `Framer.ReadBuffered` (part_001 lines 150-155): returns
`f.br.Buffered()`, the bytes available without another transport read; the
state is untouched. -/
def readBuffered (st : BR) : Nat × BR :=
  (st.buf.length, st)

/-- Outcome of `Framer.ReadFrame`.  Error constructors carry the remaining
logical stream so consumption can be observed; `tooLarge` records the
declared length, mirroring the formatted error message. -/
inductive ReadOutcome where
  | ok (msgType : Nat) (payload : List Nat) (rest : List Nat)
  | badMagic (rest : List Nat)
  | badVersion (rest : List Nat)
  | tooLarge (declared : Nat) (rest : List Nat)
  | shortHeader
  | shortPayload
deriving DecidableEq, Repr

/-- `Framer.ReadFrame` (part_001 lines 74-98) over the logical byte stream
(reader buffer plus transport): read 8 header bytes, check magic, then
version, decode the length, reject lengths above `maxAllowed`, then read
exactly `length` payload bytes. -/
def readFrame (s : List Nat) : ReadOutcome :=
  match s with
  | b0 :: b1 :: b2 :: b3 :: b4 :: b5 :: b6 :: b7 :: rest =>
    if b0 * 256 + b1 ≠ Magic then .badMagic rest
    else if b2 ≠ ProtocolVersion then .badVersion rest
    else
      let length := b4 * 16777216 + b5 * 65536 + b6 * 256 + b7
      if length > maxAllowed then .tooLarge length rest
      else if rest.length < length then .shortPayload
      else .ok b3 (rest.take length) (rest.drop length)
  | _ => .shortHeader

/-- Length field declared by a frame: bytes 4-7 decoded big-endian, as
`binary.BigEndian.Uint32(header[4:8])` does. -/
def declaredLen (s : List Nat) : Nat :=
  s.getD 4 0 * 16777216 + s.getD 5 0 * 65536 + s.getD 6 0 * 256 + s.getD 7 0

theorem u32_roundtrip (v : Nat) (h : v < 4294967296) :
    v / 16777216 % 256 * 16777216 + v / 65536 % 256 * 65536 +
      v / 256 % 256 * 256 + v % 256 = v := by
  omega

/-- Delivered-plus-staged bytes are an invariant of `bwWrite`: writing `p`
appends `p` to the concatenation of output and buffer. -/
theorem bwWrite_out_append_buf (st : BW) (p : List Nat) :
    (bwWrite st p).out ++ (bwWrite st p).buf = st.out ++ st.buf ++ p := by
  generalize hn : p.length + st.buf.length = n
  induction n using Nat.strong_induction_on generalizing st p with
  | _ n ih =>
    rw [bwWrite]
    split_ifs with h1 h2
    · simp [List.append_assoc]
    · have hb : st.buf = [] := List.length_eq_zero.mp h2
      simp [hb]
    · rw [ih ((p.drop (writerSize - st.buf.length)).length + 0)
        (by subst hn; simp only [List.length_drop]; omega) _ _ (by simp)]
      simp [List.append_assoc]

/-- Bytes delivered by `WriteFrame`: header then payload, appended after
whatever the framer had already delivered or staged. -/
theorem writeFrame_out (st : BW) (t : Nat) (p : List Nat) :
    (writeFrame st t p).out = st.out ++ st.buf ++ encodeHeader t p ++ p := by
  show (writeFrameBuffered st t p).out ++ (writeFrameBuffered st t p).buf = _
  unfold writeFrameBuffered
  rw [bwWrite_out_append_buf, bwWrite_out_append_buf]

/-- Any successful `readFrame` returns a payload no longer than
`maxAllowed` (the declared length passed the ceiling check and the payload
is read to exactly that length). -/
theorem readFrame_ok_length {s : List Nat} {t : Nat} {q r : List Nat}
    (h : readFrame s = .ok t q r) : q.length ≤ maxAllowed := by
  rcases s with _|⟨b0,_|⟨b1,_|⟨b2,_|⟨b3,_|⟨b4,_|⟨b5,_|⟨b6,_|⟨b7,rest⟩⟩⟩⟩⟩⟩⟩⟩ <;>
    simp only [readFrame] at h
  all_goals try cases h
  split_ifs at h with h1 h2 h3 h4 <;> cases h
  simp only [List.length_take]
  omega

/-- Explicit byte-level form of the frame a fresh framer delivers. -/
theorem writeFrame_bytes (t : Nat) (p : List Nat) :
    (writeFrame ⟨[], []⟩ t p).out =
      89 :: 89 :: 1 :: t ::
      p.length % 4294967296 / 16777216 % 256 ::
      p.length % 4294967296 / 65536 % 256 ::
      p.length % 4294967296 / 256 % 256 ::
      p.length % 4294967296 % 256 :: p := by
  rw [writeFrame_out]
  norm_num [encodeHeader, putUint32BE, Magic, ProtocolVersion]

/-- C2: for every type byte and payload, `WriteFrame` emits exactly an
8-byte header followed by the payload bytes: magic `0x5959` big-endian in
bytes 0-1, the version constant in byte 2, the caller's type in byte 3,
and `len(payload)` as a big-endian 32-bit integer in bytes 4-7. -/
theorem C2_header_layout (t : Nat) (p : List Nat) :
    (writeFrame ⟨[], []⟩ t p).out =
      89 :: 89 :: 1 :: t ::
      p.length % 4294967296 / 16777216 % 256 ::
      p.length % 4294967296 / 65536 % 256 ::
      p.length % 4294967296 / 256 % 256 ::
      p.length % 4294967296 % 256 :: p :=
  writeFrame_bytes t p

/-- C1: for every type byte in [0,255] and every payload of length at most
100 MiB, writing a frame and then reading it back from the same byte
stream returns exactly the original `(type, payload)` pair, with no error,
the payload unmodified, and the stream position exactly past the frame. -/
theorem C1_round_trip (t : Nat) (p rest : List Nat)
    (ht : t < 256) (hp : p.length ≤ maxAllowed) :
    readFrame ((writeFrame ⟨[], []⟩ t p).out ++ rest) =
      ReadOutcome.ok t p rest := by
  have hp' : p.length ≤ 104857600 := by simpa [maxAllowed] using hp
  have hL : p.length % 4294967296 = p.length := by omega
  have hdec := u32_roundtrip p.length (by omega)
  rw [writeFrame_bytes]
  simp only [List.cons_append, readFrame, hL]
  rw [hdec]
  rw [if_neg (by norm_num [Magic]), if_neg (by norm_num [ProtocolVersion]),
    if_neg (by simp only [maxAllowed]; omega),
    if_neg (by simp only [List.length_append]; omega)]
  rw [List.take_left, List.drop_left]

/-- C8: `WriteFrame` is stage-then-flush: it is definitionally
`WriteFrameBuffered` followed by `Flush`, so both produce the same
resulting state and deliver the same bytes to the transport. -/
theorem C8_write_is_stage_then_flush (st : BW) (t : Nat) (p : List Nat) :
    writeFrame st t p = flush (writeFrameBuffered st t p) ∧
    (writeFrame st t p).out = (flush (writeFrameBuffered st t p)).out :=
  ⟨rfl, rfl⟩

/-- C9: `WriteBuffered` and `ReadBuffered` mutate no state and report the
exact occupancy at call time: `WriteBuffered` returns the number of staged
bytes not yet delivered (exactly what a `Flush` would add to the
transport), and `ReadBuffered` returns the bytes already pulled from the
transport and available without a further blocking read. -/
theorem C9_introspection_pure (w : BW) (r : BR) :
    (writeBuffered w).2 = w ∧ (readBuffered r).2 = r ∧
    (writeBuffered w).1 = (flush w).out.length - w.out.length ∧
    (readBuffered r).1 = r.buf.length := by
  refine ⟨rfl, rfl, ?_, rfl⟩
  simp [writeBuffered, flush]

/-- C10: the write path encodes the length field as `len(payload)` reduced
modulo `2^32`; for payloads of `2^32` bytes or more the header
under-declares the size, and no successful read can ever return that
payload (every readable payload is at most `maxAllowed` bytes). -/
theorem C10_length_truncation (t : Nat) (p : List Nat)
    (h : 4294967296 ≤ p.length) :
    declaredLen ((writeFrame ⟨[], []⟩ t p).out) = p.length % 4294967296 ∧
    declaredLen ((writeFrame ⟨[], []⟩ t p).out) < p.length ∧
    ∀ s t2 q r, readFrame s = .ok t2 q r → q ≠ p := by
  have hd : declaredLen ((writeFrame ⟨[], []⟩ t p).out) =
      p.length % 4294967296 := by
    rw [writeFrame_bytes]
    simp only [declaredLen, List.getD, List.getElem?_cons_succ,
      List.getElem?_cons_zero, Option.getD_some]
    exact u32_roundtrip _ (by omega)
  refine ⟨hd, by omega, ?_⟩
  intro s t2 q r hok hqp
  have hq := readFrame_ok_length hok
  have : q.length ≤ 104857600 := by simpa [maxAllowed] using hq
  have : q.length = p.length := by rw [hqp]
  omega

/-- C3: the 100 MiB ceiling is inclusive: a well-formed header declaring
exactly `maxAllowed` succeeds given that many payload bytes, while a
header declaring `maxAllowed + 1` fails with the frame-too-large error and
leaves the stream exactly past the 8-byte header (no payload bytes
consumed).  `[6, 64, 0, 0]` is `100*1024*1024` big-endian and
`[6, 64, 0, 1]` is `100*1024*1024 + 1`. -/
theorem C3_ceiling_inclusive (t : Nat) (body tail : List Nat)
    (ht : t < 256) (hb : body.length = maxAllowed) :
    readFrame (89 :: 89 :: 1 :: t :: 6 :: 64 :: 0 :: 0 :: (body ++ tail)) =
      ReadOutcome.ok t body tail ∧
    readFrame (89 :: 89 :: 1 :: t :: 6 :: 64 :: 0 :: 1 :: tail) =
      ReadOutcome.tooLarge 104857601 tail := by
  have hb' : body.length = 104857600 := by simpa [maxAllowed] using hb
  constructor
  · simp only [readFrame]
    rw [if_neg (by norm_num [Magic]), if_neg (by norm_num [ProtocolVersion])]
    norm_num only
    rw [if_neg (by norm_num [maxAllowed]),
      if_neg (by simp only [List.length_append, hb']; omega),
      ← hb', List.take_left, List.drop_left]
  · simp only [readFrame]
    rw [if_neg (by norm_num [Magic]), if_neg (by norm_num [ProtocolVersion])]
    norm_num only
    rw [if_pos (by norm_num [maxAllowed])]

/-- C3 witness: the boundary length `100*1024*1024` is accepted and
`100*1024*1024 + 1` is rejected, at a concrete type byte and payload. -/
theorem C3_ceiling_inclusive_witness :
    (1 : Nat) < 256 ∧ (List.replicate 104857600 (0 : Nat)).length = maxAllowed ∧
    (readFrame (89 :: 89 :: 1 :: 1 :: 6 :: 64 :: 0 :: 0 ::
        (List.replicate 104857600 (0 : Nat) ++ [7])) =
      ReadOutcome.ok 1 (List.replicate 104857600 (0 : Nat)) [7] ∧
    readFrame (89 :: 89 :: 1 :: 1 :: 6 :: 64 :: 0 :: 1 :: [7]) =
      ReadOutcome.tooLarge 104857601 [7]) :=
  ⟨by norm_num, by rw [List.length_replicate, maxAllowed],
    C3_ceiling_inclusive 1 (List.replicate 104857600 0) [7] (by norm_num)
      (by rw [List.length_replicate, maxAllowed])⟩

/-- C4: header validation is in strict order: wrong magic fails with the
bad-magic error regardless of the version and length bytes; correct magic
with a wrong version byte fails with the bad-version error; the two
failure kinds are distinct constructors.  Both failures leave the stream
exactly past the 8-byte header. -/
theorem C4_validation_order (b0 b1 b2 b3 b4 b5 b6 b7 : Nat)
    (rest : List Nat)
    (h0 : b0 < 256) (h1 : b1 < 256) (h2 : b2 < 256) (h3 : b3 < 256)
    (h4 : b4 < 256) (h5 : b5 < 256) (h6 : b6 < 256) (h7 : b7 < 256) :
    (b0 * 256 + b1 ≠ Magic →
      readFrame (b0 :: b1 :: b2 :: b3 :: b4 :: b5 :: b6 :: b7 :: rest) =
        ReadOutcome.badMagic rest) ∧
    (b0 * 256 + b1 = Magic → b2 ≠ ProtocolVersion →
      readFrame (b0 :: b1 :: b2 :: b3 :: b4 :: b5 :: b6 :: b7 :: rest) =
        ReadOutcome.badVersion rest) ∧
    (∀ r1 r2 : List Nat,
      ReadOutcome.badMagic r1 ≠ ReadOutcome.badVersion r2) := by
  refine ⟨?_, ?_, ?_⟩
  · intro hm
    simp only [readFrame]
    rw [if_pos hm]
  · intro hm hv
    simp only [readFrame]
    rw [if_neg (not_not_intro hm), if_pos hv]
  · intro r1 r2 hcon
    cases hcon

/-- C4 witness: a concrete header with wrong magic `0xFFFF` and wrong
version byte 2 fails with the bad-magic error (magic is checked first),
and would fail with bad-version were the magic correct. -/
theorem C4_validation_order_witness :
    (255 * 256 + 255 ≠ Magic →
      readFrame (255 :: 255 :: 2 :: 1 :: 0 :: 0 :: 0 :: 0 :: [9]) =
        ReadOutcome.badMagic [9]) ∧
    (255 * 256 + 255 = Magic → 2 ≠ ProtocolVersion →
      readFrame (255 :: 255 :: 2 :: 1 :: 0 :: 0 :: 0 :: 0 :: [9]) =
        ReadOutcome.badVersion [9]) ∧
    (∀ r1 r2 : List Nat,
      ReadOutcome.badMagic r1 ≠ ReadOutcome.badVersion r2) :=
  C4_validation_order 255 255 2 1 0 0 0 0 [9]
    (by norm_num) (by norm_num) (by norm_num) (by norm_num)
    (by norm_num) (by norm_num) (by norm_num) (by norm_num)

/-- The header is always exactly 8 bytes. -/
theorem encodeHeaderLength (t : Nat) (p : List Nat) :
    (encodeHeader t p).length = 8 := by
  simp [encodeHeader, putUint32BE]

/-- When a chunk fits in the remaining buffer space, `bwWrite` only
appends it to the buffer. -/
theorem bwWrite_fits (st : BW) (p : List Nat)
    (h : p.length ≤ writerSize - st.buf.length) :
    bwWrite st p = { st with buf := st.buf ++ p } := by
  rw [bwWrite, dif_pos h]

/-- The bufio write buffer never holds more than `writerSize` bytes. -/
theorem bwWrite_buf_le (st : BW) (p : List Nat)
    (h : st.buf.length ≤ writerSize) :
    (bwWrite st p).buf.length ≤ writerSize := by
  generalize hn : p.length + st.buf.length = n
  induction n using Nat.strong_induction_on generalizing st p with
  | _ n ih =>
    rw [bwWrite]
    split_ifs with h1 h2
    · simp only [List.length_append]
      omega
    · exact h
    · exact ih ((p.drop (writerSize - st.buf.length)).length + 0)
        (by subst hn; simp only [List.length_drop]; omega) _ _
        (by simp [writerSize]) (by simp)

/-- C5 counterexample: the claim fails for a 64 KiB payload.  Writing it
with `WriteFrameBuffered` on a fresh framer overflows the 64 KiB bufio
buffer, which auto-flushes, so bytes reach the transport before any
`Flush` call. -/
theorem C5_counterexample :
    (writeFrameBuffered ⟨[], []⟩ 1 (List.replicate 65536 37)).out ≠ [] := by
  intro hout
  have hsum : (writeFrameBuffered ⟨[], []⟩ 1 (List.replicate 65536 37)).out ++
      (writeFrameBuffered ⟨[], []⟩ 1 (List.replicate 65536 37)).buf =
      encodeHeader 1 (List.replicate 65536 37) ++ List.replicate 65536 37 := by
    unfold writeFrameBuffered
    rw [bwWrite_out_append_buf, bwWrite_out_append_buf]
    dsimp only
    rw [List.nil_append, List.nil_append]
  have hbuf : (writeFrameBuffered ⟨[], []⟩ 1 (List.replicate 65536 37)).buf.length ≤
      writerSize := by
    unfold writeFrameBuffered
    exact bwWrite_buf_le _ _ (bwWrite_buf_le _ _ (by norm_num [writerSize]))
  rw [hout, List.nil_append] at hsum
  rw [hsum] at hbuf
  rw [List.length_append, List.length_replicate, encodeHeaderLength,
    writerSize] at hbuf
  omega

/-- C5 (amended): for frames that fit in the 64 KiB write buffer
(`8 + len(payload) ≤ 64*1024`), after `WriteFrameBuffered` on a fresh
framer and before `Flush`, zero bytes have reached the transport; after
`Flush`, exactly `8 + len(payload)` bytes have been delivered, and that
count equals what `WriteBuffered` reported immediately before the
flush. -/
theorem C5_buffered_isolation (t : Nat) (p : List Nat)
    (hp : 8 + p.length ≤ writerSize) :
    (writeFrameBuffered ⟨[], []⟩ t p).out = [] ∧
    (flush (writeFrameBuffered ⟨[], []⟩ t p)).out.length = 8 + p.length ∧
    (writeBuffered (writeFrameBuffered ⟨[], []⟩ t p)).1 =
      (flush (writeFrameBuffered ⟨[], []⟩ t p)).out.length := by
  have hw : writerSize = 65536 := by norm_num [writerSize]
  rw [hw] at hp
  have hc1 : (encodeHeader t p).length ≤
      writerSize - (BW.mk [] []).buf.length := by
    show (encodeHeader t p).length ≤ writerSize - ([] : List Nat).length
    rw [encodeHeaderLength]
    norm_num [writerSize]
  have s1 : bwWrite ⟨[], []⟩ (encodeHeader t p) = ⟨encodeHeader t p, []⟩ := by
    rw [bwWrite, dif_pos hc1]
    rfl
  have hc2 : p.length ≤
      writerSize - (BW.mk (encodeHeader t p) []).buf.length := by
    show p.length ≤ writerSize - (encodeHeader t p).length
    rw [encodeHeaderLength, hw]
    omega
  have s2 : bwWrite ⟨encodeHeader t p, []⟩ p = ⟨encodeHeader t p ++ p, []⟩ := by
    rw [bwWrite, dif_pos hc2]
  unfold writeFrameBuffered
  rw [s1, s2]
  refine ⟨rfl, ?_, ?_⟩ <;>
    simp [flush, writeBuffered, encodeHeaderLength]

/-- C5 witness: a small concrete frame is fully isolated before the flush
and fully delivered, as counted by `WriteBuffered`, after it. -/
theorem C5_buffered_isolation_witness :
    8 + ([5, 6, 7] : List Nat).length ≤ writerSize ∧
    ((writeFrameBuffered ⟨[], []⟩ 2 [5, 6, 7]).out = [] ∧
    (flush (writeFrameBuffered ⟨[], []⟩ 2 [5, 6, 7])).out.length =
      8 + ([5, 6, 7] : List Nat).length ∧
    (writeBuffered (writeFrameBuffered ⟨[], []⟩ 2 [5, 6, 7])).1 =
      (flush (writeFrameBuffered ⟨[], []⟩ 2 [5, 6, 7])).out.length) :=
  ⟨by norm_num [writerSize],
    C5_buffered_isolation 2 [5, 6, 7] (by norm_num [writerSize])⟩

/-- C1 witness: a concrete frame of type 1 with payload `[2, 3]` round
trips over the stream, leaving the trailing bytes in place. -/
theorem C1_round_trip_witness :
    (1 : Nat) < 256 ∧ ([2, 3] : List Nat).length ≤ maxAllowed ∧
    readFrame ((writeFrame ⟨[], []⟩ 1 [2, 3]).out ++ [9]) =
      ReadOutcome.ok 1 [2, 3] [9] :=
  ⟨by norm_num, by norm_num [maxAllowed],
    C1_round_trip 1 [2, 3] [9] (by norm_num) (by norm_num [maxAllowed])⟩

/-- C10 witness: a payload of exactly `2^32` bytes has its length encoded
as `0` on the wire, so the header under-declares the size and no
successful read can return it. -/
theorem C10_length_truncation_witness :
    4294967296 ≤ (List.replicate 4294967296 (0 : Nat)).length ∧
    (declaredLen ((writeFrame ⟨[], []⟩ 0
        (List.replicate 4294967296 (0 : Nat))).out) =
      (List.replicate 4294967296 (0 : Nat)).length % 4294967296 ∧
    declaredLen ((writeFrame ⟨[], []⟩ 0
        (List.replicate 4294967296 (0 : Nat))).out) <
      (List.replicate 4294967296 (0 : Nat)).length ∧
    ∀ s t2 q r, readFrame s = .ok t2 q r →
      q ≠ List.replicate 4294967296 (0 : Nat)) :=
  ⟨by rw [List.length_replicate], C10_length_truncation 0 _
    (by rw [List.length_replicate])⟩

/-- Big-endian 32-bit decode of four header bytes, as
`binary.BigEndian.Uint32` computes it. -/
def decodeU32 (b4 b5 b6 b7 : Nat) : Nat :=
  b4 * 16777216 + b5 * 65536 + b6 * 256 + b7

/-- Growth rule of the reusable payload buffer (part_001 lines 125-128):
`newCap := cap*2; if newCap < length { newCap = length }`. -/
def growCap (c L : Nat) : Nat :=
  if 2 * c < L then L else 2 * c

/-- Read-side state for `ReadFrameSharedBuffer`, with allocations made
explicit so retained slice views can be observed after later calls:
`input` is the unconsumed byte stream, `heap` the backing stores allocated
so far, and `rbuf` the index of the store currently backing `f.rbuf`
(`none` models the nil slice). -/
structure SharedReader where
  input : List Nat
  heap : List (List Nat)
  rbuf : Option Nat
deriving DecidableEq, Repr

/-- Current capacity of the reusable buffer, `cap(f.rbuf)` (0 for nil). -/
def rcap (heap : List (List Nat)) (rbuf : Option Nat) : Nat :=
  match rbuf with
  | none => 0
  | some i => (heap.getD i []).length

/-- A payload view returned by `ReadFrameSharedBuffer`: the backing store
index and the view length (`f.rbuf[:length]`). -/
def derefView (heap : List (List Nat)) (v : Nat × Nat) : List Nat :=
  (heap.getD v.1 []).take v.2

/-- Outcome of `Framer.ReadFrameSharedBuffer`; `ok` carries the returned
view and the updated reader state. -/
inductive SharedOutcome where
  | ok (msgType : Nat) (view : Nat × Nat) (st : SharedReader)
  | badMagic (st : SharedReader)
  | badVersion (st : SharedReader)
  | tooLarge (declared : Nat) (st : SharedReader)
  | shortInput
deriving DecidableEq, Repr

/-- `Framer.ReadFrameSharedBuffer` (part_001 lines 103-138): validate the
header as `ReadFrame` does, then ensure the reusable buffer has capacity
for the declared length — growing by `growCap` into a fresh store when it
does not — and read the payload into the store's first `length` bytes,
returning a view of them.  The Go local `length` is inlined as
`decodeU32 b4 b5 b6 b7`. -/
def readFrameSharedBuffer (st : SharedReader) : SharedOutcome :=
  match st.input with
  | b0 :: b1 :: b2 :: b3 :: b4 :: b5 :: b6 :: b7 :: rest =>
    if b0 * 256 + b1 ≠ Magic then .badMagic { st with input := rest }
    else if b2 ≠ ProtocolVersion then .badVersion { st with input := rest }
    else if decodeU32 b4 b5 b6 b7 > maxAllowed then
      .tooLarge (decodeU32 b4 b5 b6 b7) { st with input := rest }
    else if rest.length < decodeU32 b4 b5 b6 b7 then .shortInput
    else if rcap st.heap st.rbuf < decodeU32 b4 b5 b6 b7 then
      .ok b3 (st.heap.length, decodeU32 b4 b5 b6 b7)
        { input := rest.drop (decodeU32 b4 b5 b6 b7),
          heap := st.heap ++ [rest.take (decodeU32 b4 b5 b6 b7) ++
            (List.replicate (growCap (rcap st.heap st.rbuf) (decodeU32 b4 b5 b6 b7))
              0).drop (decodeU32 b4 b5 b6 b7)],
          rbuf := some st.heap.length }
    else
      .ok b3 (st.rbuf.getD 0, decodeU32 b4 b5 b6 b7)
        { input := rest.drop (decodeU32 b4 b5 b6 b7),
          heap := st.heap.set (st.rbuf.getD 0)
            (rest.take (decodeU32 b4 b5 b6 b7) ++
              (st.heap.getD (st.rbuf.getD 0) []).drop
                (decodeU32 b4 b5 b6 b7)),
          rbuf := st.rbuf }
  | _ => .shortInput

/-- After a successful shared-buffer read, the reusable buffer is the
store backing the returned view (or is still nil and the view is
empty). -/
theorem shared_ok_rbuf {st : SharedReader} {t : Nat} {v : Nat × Nat}
    {st2 : SharedReader} (h : readFrameSharedBuffer st = .ok t v st2) :
    st2.rbuf = some v.1 ∨ (st2.rbuf = none ∧ v.2 = 0) := by
  obtain ⟨inp, hp, rb⟩ := st
  rcases inp with _|⟨b0,_|⟨b1,_|⟨b2,_|⟨b3,_|⟨b4,_|⟨b5,_|⟨b6,_|⟨b7,rest⟩⟩⟩⟩⟩⟩⟩⟩ <;>
    simp only [readFrameSharedBuffer] at h
  all_goals try cases h
  split_ifs at h with hm hv hl hs hg <;> cases h
  · left
    rfl
  · rcases rb with _ | i
    · right
      refine ⟨rfl, ?_⟩
      simp only [rcap] at hg
      omega
    · left
      rfl

/-- The declared length of a stream is the big-endian decode of header
bytes 4-7. -/
theorem declaredLen_cons (b0 b1 b2 b3 b4 b5 b6 b7 : Nat) (rest : List Nat) :
    declaredLen (b0 :: b1 :: b2 :: b3 :: b4 :: b5 :: b6 :: b7 :: rest) =
      decodeU32 b4 b5 b6 b7 := by
  simp [declaredLen, decodeU32]

/-- C7: when the reusable buffer's capacity is smaller than the declared
length, a successful `ReadFrameSharedBuffer` grows it to exactly
`max (2 * old capacity) (declared length)`, and the returned view has
length exactly the declared length. -/
theorem C7_buffer_growth (heap1 : List (List Nat)) (rb : Option Nat)
    (t b4 b5 b6 b7 : Nat) (rest : List Nat) (v : Nat × Nat)
    (st2 : SharedReader)
    (h : readFrameSharedBuffer
        ⟨89 :: 89 :: 1 :: t :: b4 :: b5 :: b6 :: b7 :: rest, heap1, rb⟩ =
      SharedOutcome.ok t v st2)
    (hc : rcap heap1 rb <
      declaredLen (89 :: 89 :: 1 :: t :: b4 :: b5 :: b6 :: b7 :: rest)) :
    v.2 = declaredLen (89 :: 89 :: 1 :: t :: b4 :: b5 :: b6 :: b7 :: rest) ∧
    rcap st2.heap st2.rbuf =
      max (2 * rcap heap1 rb)
        (declaredLen (89 :: 89 :: 1 :: t :: b4 :: b5 :: b6 :: b7 :: rest)) ∧
    (derefView st2.heap v).length =
      declaredLen (89 :: 89 :: 1 :: t :: b4 :: b5 :: b6 :: b7 :: rest) := by
  rw [declaredLen_cons] at hc ⊢
  simp only [readFrameSharedBuffer] at h
  rw [if_neg (not_not_intro (by norm_num [Magic])),
    if_neg (not_not_intro (by norm_num [ProtocolVersion]))] at h
  split_ifs at h with hl hs <;> try cases h
  have hsl : (rest.take (decodeU32 b4 b5 b6 b7) ++
      (List.replicate (growCap (rcap heap1 rb) (decodeU32 b4 b5 b6 b7))
        0).drop (decodeU32 b4 b5 b6 b7)).length =
      max (2 * rcap heap1 rb) (decodeU32 b4 b5 b6 b7) := by
    simp only [List.length_append, List.length_take, List.length_drop,
      List.length_replicate, growCap]
    split_ifs <;> omega
  refine ⟨rfl, ?_, ?_⟩
  · simp only [rcap]
    rw [List.getD_append_right _ _ _ _ (Nat.le_refl _), Nat.sub_self,
      List.getD_cons_zero]
    exact hsl
  · simp only [derefView]
    rw [List.getD_append_right _ _ _ _ (Nat.le_refl _), Nat.sub_self,
      List.getD_cons_zero, List.length_take, hsl]
    omega

/-- C7 witness: a fresh codec (nil buffer, capacity 0) reading a 1-byte
frame grows the buffer to capacity 1 and returns a 1-byte view. -/
theorem C7_buffer_growth_witness :
    ((0, 1) : Nat × Nat).2 =
      declaredLen (89 :: 89 :: 1 :: 3 :: 0 :: 0 :: 0 :: 1 :: [7]) ∧
    rcap (SharedReader.mk [] [[7]] (some 0)).heap
        (SharedReader.mk [] [[7]] (some 0)).rbuf =
      max (2 * rcap [] none)
        (declaredLen (89 :: 89 :: 1 :: 3 :: 0 :: 0 :: 0 :: 1 :: [7])) ∧
    (derefView (SharedReader.mk [] [[7]] (some 0)).heap (0, 1)).length =
      declaredLen (89 :: 89 :: 1 :: 3 :: 0 :: 0 :: 0 :: 1 :: [7]) :=
  C7_buffer_growth [] none 3 0 0 0 1 [7] (0, 1)
    (SharedReader.mk [] [[7]] (some 0)) (by decide) (by decide)

/-- C6 counterexample: the claim fails when the second read must grow the
buffer.  On a fresh codec, a 1-byte frame `[97]` then a 2-byte frame
`[98, 99]`: the second call reallocates (capacity 1 < 2), so the retained
first view still shows the first frame's byte `[97]`, not the second
frame's bytes. -/
theorem C6_counterexample :
    readFrameSharedBuffer
        ⟨[89, 89, 1, 1, 0, 0, 0, 1, 97,
          89, 89, 1, 1, 0, 0, 0, 2, 98, 99], [], none⟩ =
      SharedOutcome.ok 1 (0, 1)
        ⟨[89, 89, 1, 1, 0, 0, 0, 2, 98, 99], [[97]], some 0⟩ ∧
    readFrameSharedBuffer
        ⟨[89, 89, 1, 1, 0, 0, 0, 2, 98, 99], [[97]], some 0⟩ =
      SharedOutcome.ok 1 (1, 2) ⟨[], [[97], [98, 99]], some 1⟩ ∧
    [(97 : Nat)] ≠ [98, 99] ∧
    derefView [[97], [98, 99]] (0, 1) ≠
      (derefView [[97], [98, 99]] (1, 2)).take 1 := by
  refine ⟨by decide, by decide, by decide, by decide⟩

/-- C6 (amended): for two consecutive successful `ReadFrameSharedBuffer`
calls where the second frame's length is at least the first's and at most
the reusable buffer's current capacity (so no reallocation occurs), the
view returned by the first call, if retained, reflects the second frame's
bytes after the second call returns: it equals the second payload's first
`v1.2` bytes.  When the second call must grow the buffer, the retained
view keeps showing the first frame's bytes instead (see the
counterexample). -/
theorem C6_view_invalidation (st0 st1 st2 : SharedReader) (t1 t2 : Nat)
    (v1 v2 : Nat × Nat)
    (h1 : readFrameSharedBuffer st0 = .ok t1 v1 st1)
    (h2 : readFrameSharedBuffer st1 = .ok t2 v2 st2)
    (hlen : v1.2 ≤ v2.2) (hcap : v2.2 ≤ rcap st1.heap st1.rbuf) :
    derefView st2.heap v1 = (derefView st2.heap v2).take v1.2 ∧
    derefView st2.heap v2 = (st1.input.drop 8).take v2.2 := by
  by_cases hz : v2.2 = 0
  · have hz1 : v1.2 = 0 := by omega
    constructor
    · simp [derefView, hz1]
    · simp [derefView, hz]
  rcases shared_ok_rbuf h1 with hrb | ⟨hrb, hv0⟩
  swap
  · rw [hrb] at hcap
    simp only [rcap] at hcap
    omega
  obtain ⟨inp1, heap1, rb1⟩ := st1
  simp only at hrb
  subst hrb
  rcases inp1 with _|⟨b0,_|⟨b1,_|⟨b2,_|⟨b3,_|⟨b4,_|⟨b5,_|⟨b6,_|⟨b7,rest⟩⟩⟩⟩⟩⟩⟩⟩ <;>
    simp only [readFrameSharedBuffer] at h2
  all_goals try cases h2
  simp only at hcap
  split_ifs at h2 with hm hv hl hs hg <;> try cases h2
  case _ =>
    -- the grow branch contradicts hcap
    simp only at hcap
    exact absurd hg (by omega)
  case _ =>
    -- no-grow branch
    simp only [Option.getD, Prod.snd] at hcap hlen hz ⊢
    have hcap2 : decodeU32 b4 b5 b6 b7 ≤ (heap1.getD v1.1 []).length := by
      simpa [rcap] using hcap
    have hbound : v1.1 < heap1.length := by
      by_contra hnb
      push_neg at hnb
      rw [List.getD_eq_default _ _ hnb] at hcap2
      simp only [List.length_nil] at hcap2
      omega
    have hget : (heap1.set v1.1
        (rest.take (decodeU32 b4 b5 b6 b7) ++
          (heap1.getD v1.1 []).drop (decodeU32 b4 b5 b6 b7))).getD v1.1 [] =
        rest.take (decodeU32 b4 b5 b6 b7) ++
          (heap1.getD v1.1 []).drop (decodeU32 b4 b5 b6 b7) := by
      rw [List.getD_eq_getD_get?, List.get?_set_eq_of_lt _ hbound]
      rfl
    have htl : decodeU32 b4 b5 b6 b7 ≤
        (rest.take (decodeU32 b4 b5 b6 b7)).length := by
      simp only [List.length_take]
      omega
    constructor
    · simp only [derefView]
      rw [hget, List.take_append_of_le_length (le_trans hlen htl),
        List.take_append_of_le_length htl, List.take_take, List.take_take,
        List.take_take]
      congr 1
      omega
    · simp only [derefView]
      rw [hget, List.take_append_of_le_length htl, List.take_take,
        Nat.min_self]
      rfl


/-- C6 witness: equal-length frames `[97]` then `[98]` on a warm buffer of
capacity 1: no reallocation happens and the retained first view shows the
second frame's byte after the second call. -/
theorem C6_view_invalidation_witness :
    derefView [[98]] ((0 : Nat), (1 : Nat)) =
      (derefView [[98]] (0, 1)).take 1 ∧
    derefView [[98]] (0, 1) =
      (([89, 89, 1, 2, 0, 0, 0, 1, 98] : List Nat).drop 8).take 1 :=
  C6_view_invalidation
    ⟨[89, 89, 1, 1, 0, 0, 0, 1, 97, 89, 89, 1, 2, 0, 0, 0, 1, 98], [], none⟩
    ⟨[89, 89, 1, 2, 0, 0, 0, 1, 98], [[97]], some 0⟩
    ⟨[], [[98]], some 0⟩ 1 2 (0, 1) (0, 1)
    (by decide) (by decide) (by decide) (by decide)

end Enproto
